import Mathlib

/-
Verification of the reinforcement-learning core of the AutomationAgent backend.

This file gives a shallow embedding, in Lean 4, of:
  * `agents_ReinforcementLearning/rl_engine.py`
      (ActionType, YouTubeRewardCalculator, QLearningAgent, RLEngine),
  * `databasess/agents_STM/redis_memory.py` (AgentSTM),
  * `databasess/agents_LTM/mongodb_memory.py` (AgentLTM),
  * `databasess/agents_CentralMemory/central_memory.py` (CentralMemoryDB),
and proves the behavioural properties stated about them.

Modelling conventions:
  * Python floats are modelled as rationals (`ℚ`); the properties proved are
    about the exact arithmetic expressions the code computes.
  * `np.tanh` is an abstract function parameter `tanh : ℚ → ℚ`; nothing proved
    here depends on its values beyond where the code actually applies it.
  * Python dicts keyed by strings are association lists, with `dictGet`,
    `dictSet` (insert-or-replace, preserving insertion order, appending new
    keys at the end — exactly CPython dict semantics) and `dictGetD`
    (`dict.get(k, default)`).
  * Code that can raise is modelled in `Option`/`Except`: a `none`/`.error`
    result marks the input on which the Python code raises.
  * Timestamps (`datetime.now()`, Redis TTLs) are explicit numeric arguments.
-/

namespace AutomationAgent

/-! ## Python dict primitives -/

/-- Dictionary lookup `d[k]` / `k in d`, on an association list. -/
def dictGet {β : Type} : List (String × β) → String → Option β
  | [], _ => none
  | (k, v) :: rest, key => if k = key then some v else dictGet rest key

/-- Python `d.get(k, default)`. -/
def dictGetD {β : Type} (d : List (String × β)) (key : String) (default : β) : β :=
  (dictGet d key).getD default

/-- Dictionary assignment `d[k] = v`: replaces in place, or appends a new key
at the end, exactly as a CPython dict. -/
def dictSet {β : Type} : List (String × β) → String → β → List (String × β)
  | [], key, val => [(key, val)]
  | (k, v) :: rest, key, val =>
      if k = key then (k, val) :: rest else (k, v) :: dictSet rest key val

/-- Python `{**a, **b}` dict merge: entries of `b` override / extend `a`. -/
def dictMerge {β : Type} (a b : List (String × β)) : List (String × β) :=
  b.foldl (fun acc p => dictSet acc p.1 p.2) a

theorem dictGet_dictSet_self {β : Type} (d : List (String × β)) (k : String) (v : β) :
    dictGet (dictSet d k v) k = some v := by
  induction d with
  | nil => simp [dictSet, dictGet]
  | cons hd tl ih =>
      obtain ⟨k', v'⟩ := hd
      by_cases h : k' = k
      · simp [dictSet, dictGet, h]
      · simp [dictSet, dictGet, h, ih]

theorem dictGet_dictSet_ne {β : Type} (d : List (String × β)) {k k' : String} (v : β)
    (h : k' ≠ k) : dictGet (dictSet d k v) k' = dictGet d k' := by
  induction d with
  | nil => simp [dictSet, dictGet, Ne.symm h]
  | cons hd tl ih =>
      obtain ⟨k₀, v₀⟩ := hd
      by_cases h₀ : k₀ = k
      · subst h₀
        simp [dictSet, dictGet, Ne.symm h]
      · simp [dictSet, dictGet, h₀, ih]

/-! ## `rl_engine.py` — ActionType and YouTubeRewardCalculator -/

/-- The `ActionType` enum (rl_engine.py lines 15-23): the fixed action space of
seven YouTube-optimization action kinds. -/
inductive ActionType : Type
  | uploadTimeOptimization
  | titleOptimization
  | thumbnailOptimization
  | descriptionOptimization
  | tagOptimization
  | contentStrategy
  | audienceEngagement
deriving DecidableEq, Repr

/-- The string `value` of each enum member. -/
def ActionType.value : ActionType → String
  | .uploadTimeOptimization => "upload_time_optimization"
  | .titleOptimization => "title_optimization"
  | .thumbnailOptimization => "thumbnail_optimization"
  | .descriptionOptimization => "description_optimization"
  | .tagOptimization => "tag_optimization"
  | .contentStrategy => "content_strategy"
  | .audienceEngagement => "audience_engagement"

/-- `list(ActionType)`: the action space in declaration order
(`self.action_types`, rl_engine.py line 163). -/
def actionTypes : List ActionType :=
  [.uploadTimeOptimization, .titleOptimization, .thumbnailOptimization,
   .descriptionOptimization, .tagOptimization, .contentStrategy, .audienceEngagement]

/-- `ActionType(s)`: enum lookup by value; `none` models the `ValueError`
raised on an unknown value string. -/
def ActionType.fromValue (s : String) : Option ActionType :=
  actionTypes.find? (fun a => a.value == s)

/-- `self.metric_weights` of `YouTubeRewardCalculator.__init__`
(rl_engine.py lines 91-98); 0.25, 0.15, 0.15, 0.10, 0.20, 0.15 as rationals. -/
def metricWeights : List (String × ℚ) :=
  [("views", 1/4), ("likes", 3/20), ("comments", 3/20),
   ("shares", 1/10), ("watch_time", 1/5), ("ctr", 3/20)]

/-- `np.clip(x, lo, hi)`. -/
def npClip (x lo hi : ℚ) : ℚ := min (max x lo) hi

/-- `YouTubeRewardCalculator.calculate_reward` (rl_engine.py lines 100-132).
The accumulation loop over `self.metric_weights.items()` is the fold; `tanh`
abstracts `np.tanh`. -/
def calculateReward (tanh : ℚ → ℚ) (metricsBefore metricsAfter : List (String × ℚ))
    (timeElapsedHours : ℚ) : ℚ :=
  let totalReward : ℚ := metricWeights.foldl (fun acc mw =>
    let before := dictGetD metricsBefore mw.1 0
    let after := dictGetD metricsAfter mw.1 0
    if before > 0 then
      let improvement := (after - before) / before
      let timeFactor := max (1/10) (1 - (timeElapsedHours - 24) / 168)
      let normalizedImprovement := tanh (improvement * 5)
      let weightedReward := normalizedImprovement * mw.2 * timeFactor
      acc + weightedReward
    else
      if after > 0 then acc + mw.2 * (1/10) else acc) 0
  npClip totalReward (-1) 1

/-- `YouTubeRewardCalculator.calculate_engagement_bonus`
(rl_engine.py lines 134-145). -/
def calculateEngagementBonus (metrics : List (String × ℚ)) : ℚ :=
  let engagementRate := dictGetD metrics "engagement_rate" 0
  if engagementRate > 1/20 then 1/5
  else if engagementRate > 1/50 then 1/10
  else if engagementRate > 1/100 then 1/20
  else 0

/-! ### Claim C2: the closed form of `calculate_reward`

`claimTermC2` transcribes, per metric, the case split exactly as the claim
states it ("weight * 0.1 when the before-value is zero and the after-value is
positive; and 0 otherwise"); `amendedTermC2` is the case split the code
actually implements (the flat reward fires whenever the before-value is not
positive and the after-value is). -/

/-- Per-metric contribution as the claim words it (zero before-value case). -/
def claimTermC2 (tanh : ℚ → ℚ) (before after weight t : ℚ) : ℚ :=
  if before > 0 then
    tanh (5 * (after - before) / before) * weight * max (1/10) (1 - (t - 24) / 168)
  else if before = 0 ∧ after > 0 then weight * (1/10)
  else 0

/-- The claim's closed form for the whole reward. -/
def calculateRewardClaimC2 (tanh : ℚ → ℚ) (mb ma : List (String × ℚ)) (t : ℚ) : ℚ :=
  npClip
    (claimTermC2 tanh (dictGetD mb "views" 0) (dictGetD ma "views" 0) (1/4) t
      + claimTermC2 tanh (dictGetD mb "likes" 0) (dictGetD ma "likes" 0) (3/20) t
      + claimTermC2 tanh (dictGetD mb "comments" 0) (dictGetD ma "comments" 0) (3/20) t
      + claimTermC2 tanh (dictGetD mb "shares" 0) (dictGetD ma "shares" 0) (1/10) t
      + claimTermC2 tanh (dictGetD mb "watch_time" 0) (dictGetD ma "watch_time" 0) (1/5) t
      + claimTermC2 tanh (dictGetD mb "ctr" 0) (dictGetD ma "ctr" 0) (3/20) t)
    (-1) 1

/-- Per-metric contribution with the amended case split (non-positive
before-value), which is the branch structure of the code. -/
def amendedTermC2 (tanh : ℚ → ℚ) (before after weight t : ℚ) : ℚ :=
  if before > 0 then
    tanh (5 * (after - before) / before) * weight * max (1/10) (1 - (t - 24) / 168)
  else if after > 0 then weight * (1/10)
  else 0

/-- The amended closed form for the whole reward. -/
def calculateRewardAmendedC2 (tanh : ℚ → ℚ) (mb ma : List (String × ℚ)) (t : ℚ) : ℚ :=
  npClip
    (amendedTermC2 tanh (dictGetD mb "views" 0) (dictGetD ma "views" 0) (1/4) t
      + amendedTermC2 tanh (dictGetD mb "likes" 0) (dictGetD ma "likes" 0) (3/20) t
      + amendedTermC2 tanh (dictGetD mb "comments" 0) (dictGetD ma "comments" 0) (3/20) t
      + amendedTermC2 tanh (dictGetD mb "shares" 0) (dictGetD ma "shares" 0) (1/10) t
      + amendedTermC2 tanh (dictGetD mb "watch_time" 0) (dictGetD ma "watch_time" 0) (1/5) t
      + amendedTermC2 tanh (dictGetD mb "ctr" 0) (dictGetD ma "ctr" 0) (3/20) t)
    (-1) 1

theorem npClip_le_hi (x lo hi : ℚ) : npClip x lo hi ≤ hi := min_le_right _ _

theorem lo_le_npClip (x lo hi : ℚ) (h : lo ≤ hi) : lo ≤ npClip x lo hi :=
  le_min (le_max_right x lo) h

/-- The code's loop body applied to one `(metric, weight)` pair. -/
def codeTermC2 (tanh : ℚ → ℚ) (mb ma : List (String × ℚ)) (t : ℚ)
    (acc : ℚ) (mw : String × ℚ) : ℚ :=
  let before := dictGetD mb mw.1 0
  let after := dictGetD ma mw.1 0
  if before > 0 then
    let improvement := (after - before) / before
    let timeFactor := max (1/10) (1 - (t - 24) / 168)
    let normalizedImprovement := tanh (improvement * 5)
    let weightedReward := normalizedImprovement * mw.2 * timeFactor
    acc + weightedReward
  else
    if after > 0 then acc + mw.2 * (1/10) else acc

theorem codeTermC2_eq (tanh : ℚ → ℚ) (mb ma : List (String × ℚ)) (t acc : ℚ)
    (mw : String × ℚ) :
    codeTermC2 tanh mb ma t acc mw
      = acc + amendedTermC2 tanh (dictGetD mb mw.1 0) (dictGetD ma mw.1 0) mw.2 t := by
  unfold codeTermC2 amendedTermC2
  by_cases h : dictGetD mb mw.1 0 > 0
  · simp only [if_pos h]
    have : (dictGetD ma mw.1 0 - dictGetD mb mw.1 0) / dictGetD mb mw.1 0 * 5
        = 5 * (dictGetD ma mw.1 0 - dictGetD mb mw.1 0) / dictGetD mb mw.1 0 := by
      ring
    rw [this]
  · simp only [if_neg h]
    by_cases h2 : dictGetD ma mw.1 0 > 0
    · simp [h2]
    · simp [h2]

theorem calculateReward_foldl (tanh : ℚ → ℚ) (mb ma : List (String × ℚ)) (t : ℚ) :
    calculateReward tanh mb ma t
      = npClip (List.foldl (codeTermC2 tanh mb ma t) 0 metricWeights) (-1) 1 := rfl

/-- Claim C2 (counterexample): the claim's closed form disagrees with
`calculate_reward` when a before-value is negative: with
`metrics_before = ("views" ↦ -1)` and `metrics_after = ("views" ↦ 1)` the code
takes the no-baseline branch and credits `0.25 * 0.1 = 1/40`, while the claim's
"before-value is zero" condition yields `0`. -/
theorem calculateReward_claimC2_counterexample :
    calculateReward (fun x => x) [("views", -1)] [("views", 1)] 24 = 1/40 ∧
    calculateRewardClaimC2 (fun x => x) [("views", -1)] [("views", 1)] 24 = 0 ∧
    ¬ calculateReward (fun x => x) [("views", -1)] [("views", 1)] 24
        = calculateRewardClaimC2 (fun x => x) [("views", -1)] [("views", 1)] 24 := by
  refine ⟨?_, ?_, ?_⟩ <;>
    · simp only [calculateReward, calculateRewardClaimC2, claimTermC2, metricWeights,
        dictGetD, dictGet, npClip, List.foldl, String.reduceEq, reduceIte,
        Option.getD_some, Option.getD_none]
      norm_num

/-- Claim C2 (amended): for every pair of metric dictionaries and every
elapsed-hours value, `calculate_reward` equals the clamp to `[-1, 1]` of the
sum, over the six weighted metrics, of: `tanh (5 * (after - before) / before)
* weight * max (0.1) (1 - (t - 24) / 168)` when the before-value is positive;
`weight * 0.1` when the before-value is NOT positive and the after-value is
positive; and `0` otherwise. The returned value always lies in `[-1, 1]`. -/
theorem calculateReward_amendedC2 (tanh : ℚ → ℚ) (mb ma : List (String × ℚ)) (t : ℚ) :
    calculateReward tanh mb ma t = calculateRewardAmendedC2 tanh mb ma t ∧
    -1 ≤ calculateReward tanh mb ma t ∧ calculateReward tanh mb ma t ≤ 1 := by
  refine ⟨?_, ?_, ?_⟩
  · rw [calculateReward_foldl]
    unfold calculateRewardAmendedC2
    congr 1
    simp only [metricWeights, List.foldl, codeTermC2_eq]
    ring
  · rw [calculateReward_foldl]
    exact lo_le_npClip _ _ _ (by norm_num)
  · rw [calculateReward_foldl]
    exact npClip_le_hi _ _ _

/-! ## `rl_engine.py` — QLearningAgent

The Q-table `state_hash -> {action_type -> q_value}` is an association list of
rows; a row is an association list from action value strings to rationals.
`get_q_value` mutates the table (it inserts a fresh all-zero row for an unseen
state hash), so it returns the updated agent together with the value.
`get_state_hash` (numpy discretization followed by Python `hash`) is
environment-dependent; the agent's operations are modelled on the hash strings
it produces. -/

/-- A Q-table row: the inner dict `{action_type_value -> q_value}`. -/
abbrev QRow := List (String × ℚ)

/-- The Q-table `self.q_table` (rl_engine.py line 160). -/
abbrev QTable := List (String × QRow)

/-- The fresh row `{at.value: 0.0 for at in self.action_types}` created for an
unseen state hash (rl_engine.py lines 189 and 209). -/
def freshRow : QRow := actionTypes.map (fun a => (a.value, 0))

/-- Python `max` over a list (`none` models the `ValueError` on an empty
sequence, which no reachable Q-table row triggers). -/
def listMax : List ℚ → Option ℚ
  | [] => none
  | x :: xs => some (xs.foldl max x)

/-- `self.learning_stats` (rl_engine.py lines 171-176). -/
structure LearningStats where
  totalActions : Nat
  successfulActions : Nat
  avgReward : ℚ
  explorationActions : Nat
deriving DecidableEq, Repr

/-- The mutable state of a `QLearningAgent` (rl_engine.py lines 151-176); the
unused experience-replay buffer is omitted. -/
structure QLearningAgent where
  agentId : String
  qTable : QTable
  learningRate : ℚ
  discountFactor : ℚ
  epsilon : ℚ
  episodeRewards : List ℚ
  stats : LearningStats
deriving DecidableEq, Repr

/-- `QLearningAgent.get_q_value` (rl_engine.py lines 186-191): inserts a fresh
all-zero row for an unseen state hash, then indexes the row; `none` models the
`KeyError` a row missing the action key would raise. -/
def QLearningAgent.getQValue (ag : QLearningAgent) (stateHash : String) (a : ActionType) :
    Option (QLearningAgent × ℚ) :=
  let qt := if (dictGet ag.qTable stateHash).isSome = true then ag.qTable
            else dictSet ag.qTable stateHash freshRow
  match dictGet qt stateHash with
  | none => none
  | some row =>
    match dictGet row a.value with
    | none => none
    | some q => some ({ ag with qTable := qt }, q)

/-- `QLearningAgent.update_q_value` (rl_engine.py lines 193-211): reads the
current Q-value (inserting the row if needed), takes `max` over the next
state's row when present (else `0.0`), applies the Q-learning formula and
stores the result. -/
def QLearningAgent.updateQValue (ag : QLearningAgent) (stateHash : String) (a : ActionType)
    (reward : ℚ) (nextStateHash : String) : Option QLearningAgent :=
  match ag.getQValue stateHash a with
  | none => none
  | some (ag1, currentQ) =>
    let maxNextQOpt : Option ℚ :=
      match dictGet ag1.qTable nextStateHash with
      | none => some 0
      | some row => listMax (row.map Prod.snd)
    match maxNextQOpt with
    | none => none
    | some maxNextQ =>
      let newQ := currentQ + ag1.learningRate * (reward + ag1.discountFactor * maxNextQ - currentQ)
      let qt1 := if (dictGet ag1.qTable stateHash).isSome = true then ag1.qTable
                 else dictSet ag1.qTable stateHash freshRow
      match dictGet qt1 stateHash with
      | none => none
      | some row => some { ag1 with qTable := dictSet qt1 stateHash (dictSet row a.value newQ) }

/-- The `self.learning_stats['exploration_actions'] += 1` step of the
exploration branch (rl_engine.py line 221). -/
def QLearningAgent.bumpExploration (ag : QLearningAgent) : QLearningAgent :=
  { ag with stats := { ag.stats with explorationActions := ag.stats.explorationActions + 1 } }

/-- The dict comprehension `{at: self.get_q_value(state_hash, at) for at in
self.action_types}` (rl_engine.py line 224): sequential `get_q_value` calls,
threading the mutated agent. -/
def QLearningAgent.getQValues :
    QLearningAgent → String → List ActionType → Option (QLearningAgent × List (ActionType × ℚ))
  | ag, _, [] => some (ag, [])
  | ag, stateHash, a :: rest =>
    match ag.getQValue stateHash a with
    | none => none
    | some (ag1, q) =>
      match ag1.getQValues stateHash rest with
      | none => none
      | some (ag2, qs) => some (ag2, (a, q) :: qs)

/-- Python `max(q_values, key=q_values.get)`: the first key attaining the
maximal value, in dict insertion order. -/
def argmaxFirst : ActionType × ℚ → List (ActionType × ℚ) → ActionType
  | best, [] => best.1
  | best, (a, q) :: rest => if best.2 < q then argmaxFirst (a, q) rest else argmaxFirst best rest

/-- `QLearningAgent.choose_action` (rl_engine.py lines 213-233) on a state
hash. The randomness is passed in: `randFloat` is `random.random()` and
`randAct` is `random.choice(self.action_types)`. The returned triple is the
agent after its mutations, the chosen action type and the confidence
`min(abs(q), 1.0)`; `_generate_action_parameters` (random, and touching
neither table nor stats) is elided. -/
def QLearningAgent.chooseAction (ag : QLearningAgent) (stateHash : String)
    (forceExploration : Bool) (randFloat : ℚ) (randAct : ActionType) :
    Option (QLearningAgent × ActionType × ℚ) :=
  if forceExploration || randFloat < ag.epsilon then
    let ag1 := ag.bumpExploration
    match ag1.getQValue stateHash randAct with
    | none => none
    | some (ag2, q) => some (ag2, randAct, min |q| 1)
  else
    match ag.getQValues stateHash actionTypes with
    | none => none
    | some (ag1, qs) =>
      match qs with
      | [] => none
      | p :: rest =>
        let actionType := argmaxFirst p rest
        match ag1.getQValue stateHash actionType with
        | none => none
        | some (ag2, q) => some (ag2, actionType, min |q| 1)

/-- The experience dict handed to `learn_from_experience`
(rl_engine.py lines 271-276 read these four keys). -/
structure Experience where
  stateHash : String
  actionTypeStr : String
  reward : ℚ
  nextStateHash : String
deriving DecidableEq, Repr

/-- `QLearningAgent.learn_from_experience` (rl_engine.py lines 271-293):
converts the action string back to the enum (`none` models the `ValueError`
on an unknown string), updates the Q-value, updates the statistics and the
rolling average over the last 100 rewards, and returns the updated Q-value. -/
def QLearningAgent.learnFromExperience (ag : QLearningAgent) (exp : Experience) :
    Option (QLearningAgent × ℚ) :=
  match ActionType.fromValue exp.actionTypeStr with
  | none => none
  | some a =>
    match ag.updateQValue exp.stateHash a exp.reward exp.nextStateHash with
    | none => none
    | some ag1 =>
      let stats1 := { ag1.stats with
        totalActions := ag1.stats.totalActions + 1,
        successfulActions := ag1.stats.successfulActions + (if exp.reward > 0 then 1 else 0) }
      let rewards := ag1.episodeRewards ++ [exp.reward]
      let recentRewards := rewards.drop (rewards.length - 100)
      let stats2 := { stats1 with avgReward := recentRewards.sum / (recentRewards.length : ℚ) }
      let ag2 := { ag1 with episodeRewards := rewards, stats := stats2 }
      ag2.getQValue exp.stateHash a

/-! ### Row completeness (claim C9's invariant) and read-back lemmas -/

/-- A row holds an entry for every one of the seven action kinds. -/
def RowComplete (row : QRow) : Prop :=
  ∀ a : ActionType, (dictGet row a.value).isSome = true

/-- Every row of the table is complete. -/
def TableComplete (qt : QTable) : Prop :=
  ∀ s row, dictGet qt s = some row → RowComplete row

theorem dictGet_freshRow (a : ActionType) : dictGet freshRow a.value = some 0 := by
  cases a <;> rfl

theorem rowComplete_freshRow : RowComplete freshRow := by
  intro a
  rw [dictGet_freshRow]
  rfl

theorem RowComplete.setEntry {row : QRow} (h : RowComplete row) (k : String) (v : ℚ) :
    RowComplete (dictSet row k v) := by
  intro a
  by_cases hk : a.value = k
  · rw [hk, dictGet_dictSet_self]
    rfl
  · rw [dictGet_dictSet_ne _ _ hk]
    exact h a

theorem TableComplete.setRow {qt : QTable} (h : TableComplete qt) {row : QRow}
    (hrow : RowComplete row) (s : String) : TableComplete (dictSet qt s row) := by
  intro s'' row'' hget
  by_cases hs : s'' = s
  · rw [hs, dictGet_dictSet_self] at hget
    cases hget
    exact hrow
  · rw [dictGet_dictSet_ne _ _ hs] at hget
    exact h s'' row'' hget

theorem tableComplete_nil : TableComplete [] := by
  intro s row h
  simp [dictGet] at h

theorem RowComplete.ne_nil {row : QRow} (h : RowComplete row) : row ≠ [] := by
  intro hnil
  have := h .uploadTimeOptimization
  rw [hnil] at this
  simp [dictGet] at this

theorem listMax_isSome {l : List ℚ} (h : l ≠ []) : ∃ m, listMax l = some m := by
  cases l with
  | nil => exact absurd rfl h
  | cons x xs => exact ⟨xs.foldl max x, rfl⟩

/-- The Q-value of `(s, a)` read off a table without mutating it: `0` for an
unseen state hash or action key. This is the "old q" of claim C1. -/
def preQ (qt : QTable) (s : String) (a : ActionType) : ℚ :=
  match dictGet qt s with
  | none => 0
  | some row => (dictGet row a.value).getD 0

/-- The claim C1 "max next q": the maximum Q-value over the row of `s'` when
`s'` is a key of the table, and `0.0` otherwise. -/
def preMaxNext (qt : QTable) (s' : String) : ℚ :=
  match dictGet qt s' with
  | none => 0
  | some row => (listMax (row.map Prod.snd)).getD 0

/-- The right-hand side of the one-step Q-learning update of claim C1:
`old_q + lr * (reward + discount * max_next_q - old_q)`, with `old_q` and
`max_next_q` read off the table as it was before the call. -/
def qUpdateFormula (ag : QLearningAgent) (s : String) (a : ActionType) (r : ℚ)
    (s' : String) : ℚ :=
  preQ ag.qTable s a
    + ag.learningRate * (r + ag.discountFactor * preMaxNext ag.qTable s' - preQ ag.qTable s a)

theorem getQValue_of_mem (ag : QLearningAgent) {s : String} {row : QRow} (a : ActionType)
    (hrow : dictGet ag.qTable s = some row) {q : ℚ} (hq : dictGet row a.value = some q) :
    ag.getQValue s a = some (ag, q) := by
  unfold QLearningAgent.getQValue
  simp [hrow, hq]

theorem getQValue_of_not_mem (ag : QLearningAgent) {s : String} (a : ActionType)
    (hrow : dictGet ag.qTable s = none) :
    ag.getQValue s a
      = some ({ ag with qTable := dictSet ag.qTable s freshRow }, 0) := by
  unfold QLearningAgent.getQValue
  simp [hrow, dictGet_dictSet_self, dictGet_freshRow]

theorem listMax_freshRow : listMax (freshRow.map Prod.snd) = some 0 := by
  simp [freshRow, actionTypes, listMax, List.foldl, max_self]

/-- Full characterization of `update_q_value` on a complete table: it returns
an agent differing only in the table, the table stays complete, and the entry
at `(s, a)` is exactly the Q-learning formula over the pre-call table. -/
theorem updateQValue_eq (ag : QLearningAgent) (s : String) (a : ActionType) (r : ℚ)
    (s' : String) (h : TableComplete ag.qTable) :
    ∃ qt' : QTable, ag.updateQValue s a r s' = some { ag with qTable := qt' } ∧
      TableComplete qt' ∧
      (∃ row' : QRow, dictGet qt' s = some row' ∧
        dictGet row' a.value = some (qUpdateFormula ag s a r s')) := by
  unfold QLearningAgent.updateQValue
  cases hs : dictGet ag.qTable s with
  | some row =>
      have hc : RowComplete row := h s row hs
      cases hq : dictGet row a.value with
      | none => exact absurd (hq ▸ hc a) (by simp)
      | some q =>
        rw [getQValue_of_mem ag a hs hq]
        have hpre : preQ ag.qTable s a = q := by simp [preQ, hs, hq]
        cases hs' : dictGet ag.qTable s' with
        | none =>
            have hmax : preMaxNext ag.qTable s' = 0 := by simp [preMaxNext, hs']
            simp only [hs', hs, Option.isSome_some, if_true]
            refine ⟨_, rfl, h.setRow (hc.setEntry _ _) s, _, dictGet_dictSet_self _ _ _, ?_⟩
            rw [dictGet_dictSet_self, qUpdateFormula, hpre, hmax]
        | some row' =>
            have hc' : RowComplete row' := h s' row' hs'
            obtain ⟨m, hm⟩ := listMax_isSome
              (by simpa using hc'.ne_nil : row'.map Prod.snd ≠ [])
            have hmax : preMaxNext ag.qTable s' = m := by simp [preMaxNext, hs', hm]
            simp only [hs', hs, hm, Option.isSome_some, if_true]
            refine ⟨_, rfl, h.setRow (hc.setEntry _ _) s, _, dictGet_dictSet_self _ _ _, ?_⟩
            rw [dictGet_dictSet_self, qUpdateFormula, hpre, hmax]
  | none =>
      rw [getQValue_of_not_mem ag a hs]
      have hpre : preQ ag.qTable s a = 0 := by simp [preQ, hs]
      have hTG : TableComplete (dictSet ag.qTable s freshRow) :=
        h.setRow rowComplete_freshRow s
      by_cases hss : s' = s
      · subst hss
        have hmax : preMaxNext ag.qTable s' = 0 := by simp [preMaxNext, hs]
        simp only [dictGet_dictSet_self, listMax_freshRow, Option.isSome_some, if_true]
        refine ⟨_, rfl, hTG.setRow (rowComplete_freshRow.setEntry _ _) s', _,
          dictGet_dictSet_self _ _ _, ?_⟩
        rw [dictGet_dictSet_self, qUpdateFormula, hpre, hmax]
      · have hg : dictGet (dictSet ag.qTable s freshRow) s' = dictGet ag.qTable s' :=
          dictGet_dictSet_ne _ _ hss
        cases hs' : dictGet ag.qTable s' with
        | none =>
            have hmax : preMaxNext ag.qTable s' = 0 := by simp [preMaxNext, hs']
            simp only [hg, hs', dictGet_dictSet_self, Option.isSome_some, if_true]
            refine ⟨_, rfl, hTG.setRow (rowComplete_freshRow.setEntry _ _) s, _,
              dictGet_dictSet_self _ _ _, ?_⟩
            rw [dictGet_dictSet_self, qUpdateFormula, hpre, hmax]
        | some row' =>
            have hc' : RowComplete row' := h s' row' hs'
            obtain ⟨m, hm⟩ := listMax_isSome
              (by simpa using hc'.ne_nil : row'.map Prod.snd ≠ [])
            have hmax : preMaxNext ag.qTable s' = m := by simp [preMaxNext, hs', hm]
            simp only [hg, hs', hm, dictGet_dictSet_self, Option.isSome_some, if_true]
            refine ⟨_, rfl, hTG.setRow (rowComplete_freshRow.setEntry _ _) s, _,
              dictGet_dictSet_self _ _ _, ?_⟩
            rw [dictGet_dictSet_self, qUpdateFormula, hpre, hmax]

/-- Claim C1: after `update_q_value(s, a, r, s')` on a row-complete table,
re-reading `get_q_value(s, a)` yields exactly
`old_q + learning_rate * (r + discount_factor * max_next_q - old_q)`,
where `old_q` is the Q-value of `(s, a)` before the call and `max_next_q` is
the maximum Q-value over all action kinds for `s'` when `s'` is a key of the
Q-table and `0.0` when it is unknown (in particular when it is empty). -/
theorem updateQValue_readback_C1 (ag : QLearningAgent) (s : String) (a : ActionType)
    (r : ℚ) (s' : String) (h : TableComplete ag.qTable) :
    ∃ ag' : QLearningAgent, ag.updateQValue s a r s' = some ag' ∧
      ag'.getQValue s a = some (ag', qUpdateFormula ag s a r s') := by
  obtain ⟨qt', heq, _, row', hrow, hval⟩ := updateQValue_eq ag s a r s' h
  exact ⟨_, heq, getQValue_of_mem _ a hrow hval⟩

/-- A concrete agent with the constructor defaults of `QLearningAgent.__init__`
(learning_rate 0.1, discount_factor 0.95, epsilon 0.1) and an empty Q-table. -/
def agentSeed : QLearningAgent :=
  { agentId := "agent_1", qTable := [], learningRate := 1/10, discountFactor := 19/20,
    epsilon := 1/10, episodeRewards := [], stats := ⟨0, 0, 0, 0⟩ }

/-- Witness for claim C1 at a concrete input. -/
theorem updateQValue_readback_C1_witness :
    TableComplete agentSeed.qTable ∧
    ∃ ag' : QLearningAgent,
      agentSeed.updateQValue "s0" .titleOptimization (1/2) "s1" = some ag' ∧
      ag'.getQValue "s0" .titleOptimization
        = some (ag', qUpdateFormula agentSeed "s0" .titleOptimization (1/2) "s1") :=
  ⟨tableComplete_nil,
    updateQValue_readback_C1 agentSeed "s0" .titleOptimization (1/2) "s1" tableComplete_nil⟩

theorem getQValue_complete (ag : QLearningAgent) (s : String) (a : ActionType)
    (h : TableComplete ag.qTable) :
    ∃ ag' q, ag.getQValue s a = some (ag', q) ∧ TableComplete ag'.qTable := by
  cases hs : dictGet ag.qTable s with
  | some row =>
      have hc := h s row hs
      cases hq : dictGet row a.value with
      | none => exact absurd (hq ▸ hc a) (by simp)
      | some q => exact ⟨ag, q, getQValue_of_mem ag a hs hq, h⟩
  | none =>
      exact ⟨_, 0, getQValue_of_not_mem ag a hs, h.setRow rowComplete_freshRow s⟩

theorem getQValues_complete (l : List ActionType) :
    ∀ (ag : QLearningAgent) (s : String), TableComplete ag.qTable →
      ∃ ag' qs, QLearningAgent.getQValues ag s l = some (ag', qs) ∧
        TableComplete ag'.qTable ∧ qs.length = l.length := by
  induction l with
  | nil => exact fun ag s h => ⟨ag, [], rfl, h, rfl⟩
  | cons a rest ih =>
      intro ag s h
      obtain ⟨ag1, q, hget, h1⟩ := getQValue_complete ag s a h
      obtain ⟨ag2, qs, hrec, h2, hlen⟩ := ih ag1 s h1
      refine ⟨ag2, (a, q) :: qs, ?_, h2, by simp [hlen]⟩
      simp only [QLearningAgent.getQValues, hget, hrec]

theorem chooseAction_complete (ag : QLearningAgent) (s : String) (force : Bool)
    (rf : ℚ) (ra : ActionType) (h : TableComplete ag.qTable) :
    ∃ ag' act conf, ag.chooseAction s force rf ra = some (ag', act, conf) ∧
      TableComplete ag'.qTable := by
  unfold QLearningAgent.chooseAction
  by_cases hb : (force || decide (rf < ag.epsilon)) = true
  · rw [if_pos hb]
    obtain ⟨ag2, q, hget, h2⟩ := getQValue_complete ag.bumpExploration s ra h
    exact ⟨ag2, ra, min |q| 1, by simp only [hget], h2⟩
  · rw [if_neg hb]
    obtain ⟨ag1, qs, hqs, h1, hlen⟩ := getQValues_complete actionTypes ag s h
    cases qs with
    | nil => simp [actionTypes] at hlen
    | cons p rest =>
        obtain ⟨ag2, q, hget, h2⟩ := getQValue_complete ag1 s (argmaxFirst p rest) h1
        refine ⟨ag2, argmaxFirst p rest, min |q| 1, ?_, h2⟩
        simp only [hqs, hget]

theorem learnFromExperience_eq (ag : QLearningAgent) (exp : Experience) (a : ActionType)
    (hA : ActionType.fromValue exp.actionTypeStr = some a) (h : TableComplete ag.qTable) :
    ∃ ag' q, ag.learnFromExperience exp = some (ag', q) ∧ TableComplete ag'.qTable ∧
      ag'.episodeRewards = ag.episodeRewards ++ [exp.reward] ∧
      q = qUpdateFormula ag exp.stateHash a exp.reward exp.nextStateHash := by
  obtain ⟨qt', hupd, hcomp, row', hrow, hval⟩ :=
    updateQValue_eq ag exp.stateHash a exp.reward exp.nextStateHash h
  unfold QLearningAgent.learnFromExperience
  simp only [hA, hupd]
  exact ⟨_, _, getQValue_of_mem _ a hrow hval, hcomp, rfl, rfl⟩

/-- Claim C9: the Q-table row-completeness invariant. A fresh row carries an
entry `0.0` for each of the seven action kinds, and on a complete table each
of `get_q_value`, `update_q_value` and `choose_action` succeeds (the
exploitation path meets no missing action key) and returns a complete table;
`learn_from_experience` preserves completeness whenever it returns. -/
theorem qTable_complete_invariant_C9 (ag : QLearningAgent) (h : TableComplete ag.qTable) :
    (∀ a : ActionType, dictGet freshRow a.value = some 0) ∧
    (∀ s a, ∃ ag' q, ag.getQValue s a = some (ag', q) ∧ TableComplete ag'.qTable) ∧
    (∀ s a r s', ∃ ag', ag.updateQValue s a r s' = some ag' ∧ TableComplete ag'.qTable) ∧
    (∀ s force rf ra, ∃ ag' act conf,
        ag.chooseAction s force rf ra = some (ag', act, conf) ∧ TableComplete ag'.qTable) ∧
    (∀ exp ag' q, ag.learnFromExperience exp = some (ag', q) → TableComplete ag'.qTable) := by
  refine ⟨dictGet_freshRow, fun s a => getQValue_complete ag s a h,
    fun s a r s' => ?_, fun s force rf ra => chooseAction_complete ag s force rf ra h,
    fun exp ag' q hlearn => ?_⟩
  · obtain ⟨qt', heq, hcomp, _⟩ := updateQValue_eq ag s a r s' h
    exact ⟨_, heq, hcomp⟩
  · cases hA : ActionType.fromValue exp.actionTypeStr with
    | none =>
        unfold QLearningAgent.learnFromExperience at hlearn
        simp only [hA] at hlearn
        exact Option.noConfusion hlearn
    | some a =>
        obtain ⟨ag2, q2, hEq, hcomp2, _⟩ := learnFromExperience_eq ag exp a hA h
        rw [hEq] at hlearn
        cases hlearn
        exact hcomp2

/-- Witness for claim C9 at a concrete agent. -/
theorem qTable_complete_invariant_C9_witness :
    TableComplete agentSeed.qTable ∧
    (∃ ag' q, agentSeed.getQValue "s0" .contentStrategy = some (ag', q) ∧
      TableComplete ag'.qTable) :=
  ⟨tableComplete_nil,
    (qTable_complete_invariant_C9 agentSeed tableComplete_nil).2.1 "s0" .contentStrategy⟩

/-! ## `rl_engine.py` — RLEngine -/

theorem fromValue_value (a : ActionType) : ActionType.fromValue a.value = some a := by
  cases a <;> rfl

/-- `self.current_episode` of `RLEngine` when an episode is open
(rl_engine.py lines 383-391): the observed state (kept as its hash, since
`get_state_hash` is deterministic given the state), the chosen action, the
episode start time (seconds) and the merged metrics snapshot
`{**state.video_metrics, **state.channel_metrics}`. -/
structure EpisodeData where
  stateHash : String
  actionType : ActionType
  startTime : ℚ
  metricsBefore : List (String × ℚ)
deriving Repr

/-- `RLEngine` (rl_engine.py lines 343-357): the Q-agent plus the episode
tracking; `current_episode` with `state=None` is `none`. The reward
calculator holds no mutable state beyond its fixed weights. -/
structure RLEngine where
  agentId : String
  qAgent : QLearningAgent
  currentEpisode : Option EpisodeData

/-- `RLEngine.decide_action` (rl_engine.py lines 378-393): chooses an action
and opens a new episode stamped with the current time and the merged metric
snapshot. -/
def RLEngine.decideAction (e : RLEngine) (stateHash : String)
    (videoMetrics channelMetrics : List (String × ℚ)) (explorationMode : Bool)
    (randFloat : ℚ) (randAct : ActionType) (now : ℚ) :
    Option (RLEngine × ActionType × ℚ) :=
  match e.qAgent.chooseAction stateHash explorationMode randFloat randAct with
  | none => none
  | some (ag', act, conf) =>
    some ({ e with
            qAgent := ag',
            currentEpisode := some { stateHash := stateHash,
                                     actionType := act,
                                     startTime := now,
                                     metricsBefore := dictMerge videoMetrics channelMetrics } },
      act, conf)

/-- `RLEngine.process_feedback` (rl_engine.py lines 395-433): returns `0.0`
as a no-op when no episode is open; otherwise computes the elapsed hours,
the clamped reward plus the engagement bonus, learns from the resulting
experience (whose `next_state_hash` is the empty string), and closes the
episode. -/
def RLEngine.processFeedback (e : RLEngine) (tanh : ℚ → ℚ)
    (newMetrics : List (String × ℚ)) (now : ℚ) : Option (RLEngine × ℚ) :=
  match e.currentEpisode with
  | none => some (e, 0)
  | some ep =>
    let hoursElapsed := (now - ep.startTime) / 3600
    let reward := calculateReward tanh ep.metricsBefore newMetrics hoursElapsed
    let reward := reward + calculateEngagementBonus newMetrics
    let exp : Experience :=
      { stateHash := ep.stateHash, actionTypeStr := ep.actionType.value,
        reward := reward, nextStateHash := "" }
    match e.qAgent.learnFromExperience exp with
    | none => none
    | some (ag', updatedQ) =>
      some ({ e with qAgent := ag', currentEpisode := none }, updatedQ)

/-- Claim C7: with no open episode, `process_feedback` returns exactly `0.0`,
does not raise, and leaves the engine — Q-table, learning statistics and
(absent) episode state — exactly as it was. -/
theorem processFeedback_noEpisode_C7 (e : RLEngine) (tanh : ℚ → ℚ)
    (m : List (String × ℚ)) (now : ℚ) (he : e.currentEpisode = none) :
    e.processFeedback tanh m now = some (e, 0) := by
  unfold RLEngine.processFeedback
  simp only [he]

/-- A concrete engine with no open episode (`RLEngine.__init__` state). -/
def engineSeed : RLEngine :=
  { agentId := "agent_1", qAgent := agentSeed, currentEpisode := none }

/-- Witness for claim C7 at a concrete input. -/
theorem processFeedback_noEpisode_C7_witness :
    engineSeed.currentEpisode = none ∧
    engineSeed.processFeedback (fun x => x) [("views", 5)] 0 = some (engineSeed, 0) :=
  ⟨rfl, processFeedback_noEpisode_C7 engineSeed (fun x => x) [("views", 5)] 0 rfl⟩

theorem engagementBonus_cases (m : List (String × ℚ)) :
    calculateEngagementBonus m = 0 ∨ calculateEngagementBonus m = 1/20 ∨
    calculateEngagementBonus m = 1/10 ∨ calculateEngagementBonus m = 1/5 := by
  simp only [calculateEngagementBonus]
  split_ifs <;> norm_num

/-- Claim C10: with an open episode, the reward recorded in the Experience
and fed to the Q-learning step equals
`calculate_reward(metrics_before, new_metrics, hours_elapsed)
 + calculate_engagement_bonus(new_metrics)`; the bonus takes one of the
values 0, 0.05, 0.1, 0.2, is added after the clamp, and so the total lies in
`[-1, 1.2]`. -/
theorem processFeedback_reward_C10 (e : RLEngine) (ep : EpisodeData) (tanh : ℚ → ℚ)
    (m : List (String × ℚ)) (now : ℚ)
    (he : e.currentEpisode = some ep) (h : TableComplete e.qAgent.qTable) :
    ∃ (ag' : QLearningAgent) (uq : ℚ),
      e.processFeedback tanh m now
        = some ({ e with qAgent := ag', currentEpisode := none }, uq) ∧
      ag'.episodeRewards = e.qAgent.episodeRewards ++
        [calculateReward tanh ep.metricsBefore m ((now - ep.startTime) / 3600)
          + calculateEngagementBonus m] ∧
      (calculateEngagementBonus m = 0 ∨ calculateEngagementBonus m = 1/20 ∨
        calculateEngagementBonus m = 1/10 ∨ calculateEngagementBonus m = 1/5) ∧
      -1 ≤ calculateReward tanh ep.metricsBefore m ((now - ep.startTime) / 3600)
          + calculateEngagementBonus m ∧
      calculateReward tanh ep.metricsBefore m ((now - ep.startTime) / 3600)
          + calculateEngagementBonus m ≤ 6/5 := by
  have hcr1 : -1 ≤ calculateReward tanh ep.metricsBefore m ((now - ep.startTime) / 3600) := by
    rw [calculateReward_foldl]
    exact lo_le_npClip _ _ _ (by norm_num)
  have hcr2 : calculateReward tanh ep.metricsBefore m ((now - ep.startTime) / 3600) ≤ 1 := by
    rw [calculateReward_foldl]
    exact npClip_le_hi _ _ _
  have hb := engagementBonus_cases m
  have hb0 : 0 ≤ calculateEngagementBonus m := by
    rcases hb with hx | hx | hx | hx <;> rw [hx] <;> norm_num
  have hb1 : calculateEngagementBonus m ≤ 1/5 := by
    rcases hb with hx | hx | hx | hx <;> rw [hx] <;> norm_num
  obtain ⟨ag', uq, hlearn, _, hrew, _⟩ := learnFromExperience_eq e.qAgent
    { stateHash := ep.stateHash, actionTypeStr := ep.actionType.value,
      reward := calculateReward tanh ep.metricsBefore m ((now - ep.startTime) / 3600)
        + calculateEngagementBonus m, nextStateHash := "" }
    ep.actionType (fromValue_value ep.actionType) h
  refine ⟨ag', uq, ?_, hrew, hb, by linarith, by linarith⟩
  unfold RLEngine.processFeedback
  simp only [he, hlearn]

/-- A concrete episode and engine with the episode open, for the witness. -/
def engineOpen : RLEngine :=
  { agentId := "agent_1", qAgent := agentSeed,
    currentEpisode := some { stateHash := "s0",
                             actionType := .titleOptimization,
                             startTime := 0,
                             metricsBefore := [("views", 100)] } }

/-- Witness for claim C10 at a concrete input. -/
theorem processFeedback_reward_C10_witness :
    engineOpen.currentEpisode = some { stateHash := "s0",
                                       actionType := .titleOptimization,
                                       startTime := 0,
                                       metricsBefore := [("views", 100)] } ∧
    TableComplete engineOpen.qAgent.qTable ∧
    ∃ (ag' : QLearningAgent) (uq : ℚ),
      engineOpen.processFeedback (fun x => x) [("views", 200)] 3600
        = some ({ engineOpen with qAgent := ag', currentEpisode := none }, uq) ∧
      ag'.episodeRewards = engineOpen.qAgent.episodeRewards ++
        [calculateReward (fun x => x) [("views", 100)] [("views", 200)] ((3600 - 0) / 3600)
          + calculateEngagementBonus [("views", 200)]] ∧
      (calculateEngagementBonus [("views", 200)] = 0 ∨
        calculateEngagementBonus [("views", 200)] = 1/20 ∨
        calculateEngagementBonus [("views", 200)] = 1/10 ∨
        calculateEngagementBonus [("views", 200)] = 1/5) ∧
      -1 ≤ calculateReward (fun x => x) [("views", 100)] [("views", 200)] ((3600 - 0) / 3600)
          + calculateEngagementBonus [("views", 200)] ∧
      calculateReward (fun x => x) [("views", 100)] [("views", 200)] ((3600 - 0) / 3600)
          + calculateEngagementBonus [("views", 200)] ≤ 6/5 :=
  ⟨rfl, tableComplete_nil,
    processFeedback_reward_C10 engineOpen
      { stateHash := "s0", actionType := .titleOptimization,
        startTime := 0, metricsBefore := [("views", 100)] }
      (fun x => x) [("views", 200)] 3600 rfl tableComplete_nil⟩

/-! ## `redis_memory.py` — AgentSTM

A stored experience is the pickled dict written by `store_experience`; the
fields below are the ones the modelled methods read or write (`rest` stands
for the remaining dict entries, carried through unchanged). The Redis store
keyed by experience id is an association list of entries with their remaining
TTL in seconds; the per-agent experience list (most recent first), restricted
to entries that have not expired, is a plain list. -/

/-- A stored STM experience record. -/
structure STMRecord where
  id : String
  qValue : ℚ
  updatedAt : Option ℚ
  rest : List (String × String)
deriving DecidableEq, Repr

/-- `AgentSTM.get_recent_experiences` (redis_memory.py lines 62-76) over the
live experience list, most recent first. `lrange(list, 0, limit - 1)` with
`limit = 0` has Redis stop index `-1`, which denotes the end of the list, so
a zero limit returns everything. -/
def getRecentExperiences (stored : List STMRecord) (limit : Nat) : List STMRecord :=
  if limit = 0 then stored else stored.take limit

/-- The descending-q-value order used by `get_high_q_experiences`'s
`sort(key=..., reverse=True)`. -/
def qValueGE (e1 e2 : STMRecord) : Prop := e2.qValue ≤ e1.qValue

instance : DecidableRel qValueGE :=
  fun e1 e2 => inferInstanceAs (Decidable (e2.qValue ≤ e1.qValue))

instance : IsTotal STMRecord qValueGE := ⟨fun a b => le_total b.qValue a.qValue⟩

instance : IsTrans STMRecord qValueGE := ⟨fun _ _ _ h1 h2 => le_trans h2 h1⟩

/-- `AgentSTM.get_high_q_experiences` (redis_memory.py lines 78-90): fetch up
to `limit * 2` recent experiences, keep those with `q_value >= q_threshold`,
sort by q-value descending (stable), truncate to `limit`. -/
def getHighQExperiences (stored : List STMRecord) (qThreshold : ℚ) (limit : Nat) :
    List STMRecord :=
  let allExperiences := getRecentExperiences stored (limit * 2)
  let highQExperiences := allExperiences.filter (fun e => qThreshold ≤ e.qValue)
  let sorted := highQExperiences.insertionSort qValueGE
  sorted.take limit

/-- Claim C5: `get_high_q_experiences(q_threshold, limit)` returns a list
drawn from the `2 * limit` most recent stored experiences, containing only
experiences with `q_value ≥ q_threshold`, sorted in descending q-value
order, of length at most `limit`; in particular it never returns an
experience with q-value below the threshold. -/
theorem getHighQExperiences_C5 (stored : List STMRecord) (qThreshold : ℚ) (limit : Nat) :
    (∀ e ∈ getHighQExperiences stored qThreshold limit, e ∈ stored.take (2 * limit)) ∧
    (∀ e ∈ getHighQExperiences stored qThreshold limit, qThreshold ≤ e.qValue) ∧
    List.Sorted qValueGE (getHighQExperiences stored qThreshold limit) ∧
    (getHighQExperiences stored qThreshold limit).length ≤ limit := by
  have hmem : ∀ e ∈ getHighQExperiences stored qThreshold limit,
      e ∈ getRecentExperiences stored (limit * 2) ∧ qThreshold ≤ e.qValue := by
    intro e he
    have h1 : e ∈ (getRecentExperiences stored (limit * 2)).filter
        (fun e => qThreshold ≤ e.qValue) := by
      have h2 := List.mem_of_mem_take he
      exact ((List.perm_insertionSort qValueGE _).mem_iff).1 h2
    obtain ⟨hin, hq⟩ := List.mem_filter.1 h1
    exact ⟨hin, of_decide_eq_true hq⟩
  refine ⟨fun e he => ?_, fun e he => (hmem e he).2, ?_, List.length_take_le _ _⟩
  · rcases Nat.eq_zero_or_pos limit with h0 | h0
    · subst h0
      simp [getHighQExperiences, getRecentExperiences] at he
    · have := (hmem e he).1
      rwa [getRecentExperiences, if_neg (by omega), Nat.mul_comm] at this
  · exact (List.sorted_insertionSort qValueGE _).sublist (List.take_sublist _ _)

/-- A concrete STM experience list for the witness. -/
def stmSample : List STMRecord :=
  [{ id := "e1", qValue := 19/20, updatedAt := none, rest := [] },
   { id := "e2", qValue := 1/2, updatedAt := none, rest := [] },
   { id := "e3", qValue := 1, updatedAt := none, rest := [] }]

/-- Witness for claim C5 at a concrete input. -/
theorem getHighQExperiences_C5_witness :
    (∀ e ∈ getHighQExperiences stmSample (9/10) 2, e ∈ stmSample.take (2 * 2)) ∧
    (∀ e ∈ getHighQExperiences stmSample (9/10) 2, 9/10 ≤ e.qValue) ∧
    List.Sorted qValueGE (getHighQExperiences stmSample (9/10) 2) ∧
    (getHighQExperiences stmSample (9/10) 2).length ≤ 2 :=
  getHighQExperiences_C5 stmSample (9/10) 2

/-- An entry of the Redis store: the stored record plus its remaining TTL in
seconds at the moment of the call. -/
structure STMEntry where
  record : STMRecord
  ttl : ℤ
deriving DecidableEq, Repr

/-- `AgentSTM.update_q_value` (redis_memory.py lines 92-106): fetch the
record by id; if present, rewrite it with the new q-value and an `updated_at`
stamp, `setex` it with expiry `max(ttl, 3600)`, and return `True`; if absent
return `False`. -/
def stmUpdateQValue (store : List (String × STMEntry)) (experienceId : String)
    (newQValue : ℚ) (now : ℚ) : List (String × STMEntry) × Bool :=
  match dictGet store experienceId with
  | none => (store, false)
  | some entry =>
    let record' := { entry.record with qValue := newQValue, updatedAt := some now }
    (dictSet store experienceId { record := record', ttl := max entry.ttl 3600 }, true)

/-- A store entry that still has two hours of TTL left. -/
def stmEntry7200 : STMEntry :=
  { record := { id := "e1", qValue := 1/2, updatedAt := none, rest := [] }, ttl := 7200 }

/-- Claim C8 (counterexample): on a record with 7200 s of TTL remaining, the
code keeps 7200 (it takes `max(ttl, 3600)`), while the claim's "minimum of
the existing remaining TTL and a 1-hour floor" is `min 7200 3600 = 3600`. -/
theorem stmUpdateQValue_claimC8_counterexample :
    (dictGet (stmUpdateQValue [("e1", stmEntry7200)] "e1" (9/10) 0).1 "e1").map STMEntry.ttl
      = some 7200 ∧
    min (7200 : ℤ) 3600 = 3600 ∧
    ¬ (7200 : ℤ) = min 7200 3600 := by
  refine ⟨?_, by decide, by decide⟩
  rfl

/-- Claim C8 (amended): `update_q_value(id, new_value)` rewrites the record
with the new q-value and an `updated_at` stamp and sets its expiry to the
MAXIMUM of the existing remaining TTL and a 1-hour floor — so the update
never shortens the remaining TTL (no premature expiry) and never leaves it
under one hour; it returns `True` exactly when the record existed, and
`False` with the store unchanged otherwise. -/
theorem stmUpdateQValue_amendedC8 (store : List (String × STMEntry))
    (experienceId : String) (newQValue : ℚ) (now : ℚ) :
    (∀ entry, dictGet store experienceId = some entry →
      stmUpdateQValue store experienceId newQValue now
        = (dictSet store experienceId
            { record := { entry.record with qValue := newQValue, updatedAt := some now },
              ttl := max entry.ttl 3600 }, true) ∧
      entry.ttl ≤ max entry.ttl 3600 ∧ (3600 : ℤ) ≤ max entry.ttl 3600) ∧
    (dictGet store experienceId = none →
      stmUpdateQValue store experienceId newQValue now = (store, false)) := by
  constructor
  · intro entry hget
    refine ⟨?_, le_max_left _ _, le_max_right _ _⟩
    unfold stmUpdateQValue
    simp only [hget]
  · intro hget
    unfold stmUpdateQValue
    simp only [hget]

/-- Witness for claim C8 (amended) at a concrete input. -/
theorem stmUpdateQValue_amendedC8_witness :
    stmUpdateQValue [("e1", stmEntry7200)] "e1" (9/10) 5
      = (dictSet [("e1", stmEntry7200)] "e1"
          { record := { stmEntry7200.record with qValue := 9/10, updatedAt := some 5 },
            ttl := max stmEntry7200.ttl 3600 }, true) :=
  ((stmUpdateQValue_amendedC8 [("e1", stmEntry7200)] "e1" (9/10) 5).1 stmEntry7200 rfl).1

/-! ## `mongodb_memory.py` — AgentLTM -/

/-- An LTM experience document, with the fields `cleanup_old_data` queries;
timestamps are seconds. -/
structure LTMExperience where
  agentId : String
  timestamp : ℤ
  qValue : ℚ
deriving DecidableEq, Repr

/-- `AgentLTM.cleanup_old_data` (mongodb_memory.py lines 291-302):
`delete_many` with the conjunctive filter `agent_id = self.agent_id AND
timestamp < now - days_old days AND q_value < 0.3`; returns the remaining
collection and the deleted count. -/
def cleanupOldData (agentId : String) (coll : List LTMExperience) (now : ℤ)
    (daysOld : ℤ) : List LTMExperience × Nat :=
  let cutoffDate := now - daysOld * 86400
  let deleted := coll.filter (fun r =>
    r.agentId = agentId ∧ r.timestamp < cutoffDate ∧ r.qValue < 3/10)
  (coll.filter (fun r =>
    ¬ (r.agentId = agentId ∧ r.timestamp < cutoffDate ∧ r.qValue < 3/10)), deleted.length)

/-- Claim C6: `cleanup_old_data` deletes a record only when it is both older
than the cutoff AND has `q_value < 0.3`; it never deletes a record with
`q_value ≥ 0.3` regardless of age, and never deletes a record newer than the
cutoff regardless of its q-value. -/
theorem cleanupOldData_C6 (agentId : String) (coll : List LTMExperience)
    (now daysOld : ℤ) :
    (∀ r ∈ coll, r ∉ (cleanupOldData agentId coll now daysOld).1 →
      r.agentId = agentId ∧ r.timestamp < now - daysOld * 86400 ∧ r.qValue < 3/10) ∧
    (∀ r ∈ coll, 3/10 ≤ r.qValue → r ∈ (cleanupOldData agentId coll now daysOld).1) ∧
    (∀ r ∈ coll, now - daysOld * 86400 ≤ r.timestamp →
      r ∈ (cleanupOldData agentId coll now daysOld).1) := by
  simp only [cleanupOldData, List.mem_filter, decide_eq_true_eq]
  refine ⟨fun r hr hnot => ?_, fun r hr hq => ⟨hr, fun hcond => ?_⟩,
    fun r hr ht => ⟨hr, fun hcond => ?_⟩⟩
  · by_contra hcond
    exact hnot ⟨hr, hcond⟩
  · exact absurd hcond.2.2 (not_lt.2 hq)
  · exact absurd hcond.2.1 (not_lt.2 ht)

/-- A concrete LTM collection for the witness: an old low-q record, an old
high-q record and a fresh low-q record. -/
def ltmSample : List LTMExperience :=
  [{ agentId := "agent_1", timestamp := 0, qValue := 1/5 },
   { agentId := "agent_1", timestamp := 0, qValue := 9/10 },
   { agentId := "agent_1", timestamp := 10000000, qValue := 1/5 }]

/-- Witness for claim C6 at a concrete input: the old high-q record and the
fresh low-q record both survive the cleanup. -/
theorem cleanupOldData_C6_witness :
    ({ agentId := "agent_1", timestamp := 0, qValue := 9/10 } : LTMExperience)
      ∈ (cleanupOldData "agent_1" ltmSample 2592001 30).1 ∧
    ({ agentId := "agent_1", timestamp := 10000000, qValue := 1/5 } : LTMExperience)
      ∈ (cleanupOldData "agent_1" ltmSample 2592001 30).1 :=
  ⟨(cleanupOldData_C6 "agent_1" ltmSample 2592001 30).2.1 _
      (by simp [ltmSample]) (by norm_num),
   (cleanupOldData_C6 "agent_1" ltmSample 2592001 30).2.2 _
      (by simp [ltmSample]) (by norm_num)⟩

/-! ## Connection-failure semantics (claim C3) -/

/-- The exception a method raises when it touches an attribute that is `None`
or was never assigned. -/
inductive PyError : Type
  | attributeError
deriving DecidableEq, Repr

/-- A learned-pattern document, with the fields `get_relevant_patterns`
queries; `conditions` keeps the keys the query can constrain. -/
structure LTMPattern where
  confidence : ℚ
  conditions : List (String × String)
deriving DecidableEq, Repr

/-- The descending-confidence order of `get_relevant_patterns`'s sort. -/
def confGE (p1 p2 : LTMPattern) : Prop := p2.confidence ≤ p1.confidence

instance : DecidableRel confGE :=
  fun p1 p2 => inferInstanceAs (Decidable (p2.confidence ≤ p1.confidence))

/-- One agent's LTM database handle: `none` when the `__init__` connection
attempt failed (mongodb_memory.py lines 67-71 set `client = None` and
`db = None`, and the collection attributes are then never assigned). -/
structure AgentLTMState where
  conn : Option (List LTMExperience × List LTMPattern)

/-- `AgentLTM.get_relevant_patterns` (mongodb_memory.py lines 195-214): the
method has NO `_check_connection()` guard — with a failed connection the
`self.patterns_collection` attribute does not exist and the access raises
`AttributeError`. Connected, it filters patterns with confidence ≥ 0.6,
optionally constrained to the context's `video_type` and `audience_segment`,
sorted by confidence descending, limited to 20. -/
def getRelevantPatterns (ltm : AgentLTMState) (currentContext : List (String × String)) :
    Except PyError (List LTMPattern) :=
  match ltm.conn with
  | none => .error .attributeError
  | some (_, patterns) =>
    let base := patterns.filter (fun p => (6/10 : ℚ) ≤ p.confidence)
    let f1 := match dictGet currentContext "video_type" with
      | none => base
      | some vt => base.filter (fun p => dictGet p.conditions "video_type" = some vt)
    let f2 := match dictGet currentContext "audience_segment" with
      | none => f1
      | some aud => f1.filter (fun p => dictGet p.conditions "audience_segment" = some aud)
    .ok ((f2.insertionSort confGE).take 20)

/-! ## `central_memory.py` — CentralMemoryDB -/

/-- One experience inside a sync document's `ltm_summary.best_experiences`. -/
structure SyncExperience where
  qValue : ℚ
  action : String
  reward : ℚ
deriving DecidableEq, Repr

/-- One document of the `agent_synchronization` collection; `sync_agent_data`
upserts keyed on `agent_id`, so there is one document per agent. -/
structure SyncDoc where
  agentId : String
  lastSync : ℤ
  bestExperiences : List SyncExperience
deriving DecidableEq, Repr

/-- One element appended to `common_actions[action]`
(central_memory.py lines 388-392). -/
structure AgentResult where
  agentId : String
  reward : ℚ
  qValue : ℚ
deriving DecidableEq, Repr

/-- A returned cross-agent pattern (central_memory.py lines 400-409). -/
structure CrossPattern where
  actionType : String
  supportingAgents : List String
  patternStrength : ℚ
  avgReward : ℚ
  avgQValue : ℚ
  confidence : ℚ
deriving DecidableEq, Repr

/-- `statistics.mean`. -/
def pymean (l : List ℚ) : ℚ := l.sum / (l.length : ℚ)

/-- The keys of `common_actions` in first-insertion order (a `defaultdict`
iterates its keys in the order they were first inserted). -/
def firstKeys : List (String × AgentResult) → List String
  | [] => []
  | (k, _) :: rest => k :: firstKeys (rest.filter (fun p => p.1 ≠ k))
termination_by l => l.length
decreasing_by
  simp only [List.length_cons]
  exact Nat.lt_succ_of_le (List.length_filter_le _ _)

/-- `CentralMemoryDB.detect_cross_agent_patterns` (central_memory.py lines
364-423). The Mongo query keeps syncs of the trailing 24 hours; fewer than 2
such documents short-circuits to `[]`. Experiences with `q_value >= 0.8` and
a non-empty action are grouped by action string, and a pattern is emitted
for every group with at least 3 entries. The `replace_one` store of each
emitted pattern mirrors the returned list and is elided; the method itself
has no connection guard. -/
def detectCrossAgentPatterns (syncs : List SyncDoc) (now : ℤ) : List CrossPattern :=
  let recentSyncs := syncs.filter (fun s => now - 86400 ≤ s.lastSync)
  if recentSyncs.length < 2 then []
  else
    let entries : List (String × AgentResult) := recentSyncs.flatMap (fun sync =>
      (sync.bestExperiences.filter (fun e => 8/10 ≤ e.qValue ∧ e.action ≠ "")).map
        (fun e => (e.action,
          { agentId := sync.agentId, reward := e.reward, qValue := e.qValue })))
    (firstKeys entries).filterMap (fun action =>
      let agentResults := (entries.filter (fun p => p.1 = action)).map Prod.snd
      if 3 ≤ agentResults.length then
        some { actionType := action,
               supportingAgents := agentResults.map AgentResult.agentId,
               patternStrength := (agentResults.length : ℚ) / (recentSyncs.length : ℚ),
               avgReward := pymean (agentResults.map AgentResult.reward),
               avgQValue := pymean (agentResults.map AgentResult.qValue),
               confidence := min ((agentResults.length : ℚ) / 5) 1 }
      else none)

/-- A sync document of an agent holding three high-Q experiences of one and
the same action type. -/
def syncDocA : SyncDoc :=
  { agentId := "agent_a", lastSync := 172800,
    bestExperiences :=
      [{ qValue := 9/10, action := "title_optimization", reward := 1/2 },
       { qValue := 9/10, action := "title_optimization", reward := 1/2 },
       { qValue := 9/10, action := "title_optimization", reward := 1/2 }] }

/-- A second synced agent contributing nothing. -/
def syncDocB : SyncDoc :=
  { agentId := "agent_b", lastSync := 172800, bestExperiences := [] }

/-- Claim C4 (code evaluation at the failing input): with two agents synced
in the window — agent_a holding three q≥0.8 experiences of one action and
agent_b none — the `len(agent_results) >= 3` check passes on three entries
of the SAME agent, so the code emits a "cross-agent" pattern supported by a
single distinct agent, contradicting the ≥ 3 distinct-agent invariant (and
the code's own comment "At least 3 agents found this successful"). With only
one sync in the window, the short-circuit to the empty list does hold. -/
theorem detectCrossAgentPatterns_C4_bug :
    (detectCrossAgentPatterns [syncDocA, syncDocB] 172800).map CrossPattern.supportingAgents
      = [["agent_a", "agent_a", "agent_a"]] ∧
    (["agent_a", "agent_a", "agent_a"] : List String).eraseDups.length = 1 ∧
    detectCrossAgentPatterns [syncDocA] 172800 = [] := by
  refine ⟨?_, by rfl, by rfl⟩
  norm_num [detectCrossAgentPatterns, syncDocA, syncDocB, firstKeys, pymean,
    List.filter_cons, List.filterMap_cons, String.reduceEq]
  simp [List.filter_cons, List.filterMap_cons, firstKeys]

/-- A document of the `active_agents` collection. -/
structure ActiveAgent where
  agentId : String
  status : String
deriving DecidableEq, Repr

/-- An urgent insight as stored by `broadcast_urgent_insight`. -/
structure UrgentInsight where
  fields : List (String × String)
  priority : String
  broadcastTime : ℤ
  targetAgents : List String
  acknowledgedBy : List String
deriving DecidableEq, Repr

/-- The Central Memory collections touched by the methods modelled here. -/
structure CentralCollections where
  globalInsights : List UrgentInsight
  activeAgents : List ActiveAgent
deriving Repr

/-- `CentralMemoryDB` connection state: `__init__` leaves every collection
attribute `None` and only a successful `_ensure_connection` populates them
(central_memory.py lines 27-42 and 80-87); `none` models the
never-connected / failed state. -/
structure CentralMemoryDB where
  conn : Option CentralCollections

/-- `CentralMemoryDB.broadcast_urgent_insight` (central_memory.py lines
534-552): the method calls neither `_ensure_connection` nor
`_check_connection`; with no connection `self.active_agents` and
`self.global_insights` are `None`, so `.find(...)` / `.insert_one(...)`
raises `AttributeError`. Connected, it resolves the target list (all active
agents when `target_agents` is `None`), stores the insight with urgent
priority, and returns the number of targets. -/
def broadcastUrgentInsight (db : CentralMemoryDB) (insight : List (String × String))
    (targetAgents : Option (List String)) (now : ℤ) :
    Except PyError (CentralMemoryDB × Nat) :=
  match db.conn with
  | none => .error .attributeError
  | some colls =>
    let targets := match targetAgents with
      | none => (colls.activeAgents.filter (fun a => a.status = "active")).map
          ActiveAgent.agentId
      | some ts => ts
    let urgentInsight : UrgentInsight :=
      { fields := insight, priority := "urgent", broadcastTime := now,
        targetAgents := targets, acknowledgedBy := [] }
    .ok ({ conn := some { colls with
             globalInsights := colls.globalInsights ++ [urgentInsight] } },
      targets.length)

/-- Claim C3 (code evaluation at the failing inputs): when the document-store
connection was never established, LTM `get_relevant_patterns` and Central
Memory `broadcast_urgent_insight` raise `AttributeError` instead of
returning the empty/neutral result the storage-unavailable policy promises
for every read/write method. -/
theorem storageUnavailable_C3_bug :
    getRelevantPatterns { conn := none } [("video_type", "tutorial")]
      = .error .attributeError ∧
    broadcastUrgentInsight { conn := none } [("message", "m")] none 0
      = .error .attributeError :=
  ⟨rfl, rfl⟩

end AutomationAgent

